import Mathlib

set_option linter.unusedVariables false

/-! Shallow embedding of lib/Parse/ParseSIL.cpp: the textual SIL parser's
block resolver (SILParserFunctionState::getBBForDefinition/getBBForReference/
diagnoseProblems), the SIL type parser (parseSILType), the opcode dispatcher
(parseSILOpcode) and the declaration driver (Parser::parseDeclSIL).

Modelling conventions:
- SILBasicBlock pointers are modelled as arena indices (Nat) handed out by a
  monotone counter `nextBB`; two allocations never share an index, which models
  pointer identity of `new (SILMod) SILBasicBlock(F)`.
- The token stream (lexer) is an external collaborator: a PState carries the
  already-lexed token list.  `Parser::parseToken`, `Parser::parseIdentifier`,
  `Parser::consumeIf` and `Parser::parseMatchingToken` live in Parser.h, which
  is outside this excerpt; they are modelled from the spec's token-stream
  contract (consume-if-kind, diagnose at the offending token otherwise).
- `performTypeLocChecking` (type checking / name binding) is an external
  service; it is passed in as an oracle `chk : ASTStage → String → Bool`
  (true = failure) that observes the current AST stage, so that the scoped
  stage override of parseSILType is visible in the embedding.
- Diagnostics are accumulated as a list of (location, kind) pairs. -/

inductive ASTStage where
  | Parsing
  | Parsed
deriving DecidableEq

inductive SILLinkage where
  | External
  | Internal
  | ClangThunk
deriving DecidableEq

inductive ValueKind where
  | SILArgument
  | TupleInst
  | ReturnInst
deriving DecidableEq

inductive TokKind where
  | identifier
  | integer_literal
  | l_square
  | r_square
  | l_paren
  | r_paren
  | l_brace
  | r_brace
  | colon
  | comma
  | equal
  | oper
  | sil_dollar
  | sil_local_name
  | sil_at_sign
  | kw_sil
  | kw_return
  | eof
deriving DecidableEq

/-- Source locations; only used as opaque positions for diagnostics. -/
abbrev SourceLoc := Nat

structure Token where
  kind : TokKind
  text : String
  loc : SourceLoc
  atStartOfLine : Bool := false
deriving DecidableEq

inductive DiagKind where
  | undefined_basicblock_use
  | basicblock_redefinition
  | expected_sil_instr_opcode
  | unknown_sil_type_attribute
  | expected_identifier_sil_type_attributes
  | malformed_sil_uncurry_attribute
  | expected_bracket_sil_type_attributes
  | expected_sil_linkage_or_function
  | expected_sil_type
  | expected_sil_colon_value_ref
  | expected_sil_value_name
  | expected_sil_instr_name
  | expected_sil_instr_start_of_line
  | expected_equal_in_sil_instr
  | expected_tok_in_sil_instr
  | expected_sil_block_name
  | expected_sil_block_colon
  | expected_sil_function_name
  | expected_sil_rbrace
deriving DecidableEq

/-- A lowered SIL type, as produced by `SILMod.Types.getLoweredType` and
`SILType::getAddressType` (both external to this excerpt; the record keeps
the surface type name, the uncurry level passed to lowering, and the
address-modifier flag). -/
structure SILType where
  name : String
  uncurryLevel : Nat
  isAddress : Bool
deriving DecidableEq

def SILType.getAddressType (t : SILType) : SILType := { t with isAddress := true }

/-- A SILFunction as created by `new (*SIL) SILFunction(*SIL, FnLinkage,
FnName.str(), FnType)`; the enclosing SILModule's function list records it. -/
structure SILFunctionRec where
  linkage : SILLinkage
  name : String
  type : SILType
deriving DecidableEq

/-- Parser-level state: the token stream, emitted diagnostics, the
translation unit's ASTStage marker (P.TU->ASTStage), and the SILModule's
function list.  `finalizeCount` counts the invocations of
SILParserFunctionState::diagnoseProblems, making the driver's control flow
around finalization observable in the embedding. -/
structure PState where
  toks : List Token
  diags : List (SourceLoc × DiagKind)
  astStage : ASTStage
  sil : List SILFunctionRec
  finalizeCount : Nat
deriving DecidableEq

def eofTok : Token := { kind := TokKind.eof, text := "", loc := 0 }

/-- P.Tok: the current token. -/
def PState.tok (p : PState) : Token := p.toks.headD eofTok

/-- P.peekToken(): one-token lookahead. -/
def PState.peekToken (p : PState) : Token := (p.toks.drop 1).headD eofTok

/-- P.consumeToken(): advance past the current token. -/
def PState.consume (p : PState) : PState := { p with toks := p.toks.tail }

/-- P.diagnose(loc, kind): append a diagnostic; never aborts by itself. -/
def PState.diag (p : PState) (l : SourceLoc) (k : DiagKind) : PState :=
  { p with diags := p.diags ++ [(l, k)] }

/-- Parser::parseToken (Parser.h, external): consume a token of the expected
kind, or diagnose at the current token and fail without consuming. -/
def PState.parseToken (p : PState) (k : TokKind) (d : DiagKind) : Bool × PState :=
  if p.tok.kind = k then (false, p.consume) else (true, p.diag p.tok.loc d)

/-- Parser::consumeIf (Parser.h, external). -/
def PState.consumeIf (p : PState) (k : TokKind) : Bool × PState :=
  if p.tok.kind = k then (true, p.consume) else (false, p)

/-- Parser::parseIdentifier (Parser.h, external): on an identifier token,
yield its text and location and consume it; otherwise diagnose and fail.
Result layout: (failed, text, loc, state). -/
def PState.parseIdentifier (p : PState) (d : DiagKind) :
    Bool × String × SourceLoc × PState :=
  if p.tok.kind = TokKind.identifier then (false, p.tok.text, p.tok.loc, p.consume)
  else (true, "", p.tok.loc, p.diag p.tok.loc d)

/-- Parser::parseMatchingToken (Parser.h, external): like parseToken; the
opening location is carried for the mismatched-delimiter note. -/
def PState.parseMatchingToken (p : PState) (k : TokKind) (d : DiagKind)
    (opening : SourceLoc) : Bool × PState :=
  if p.tok.kind = k then (false, p.consume) else (true, p.diag p.tok.loc d)

/-- SILParserFunctionState (ParseSIL.cpp): per-function parse state.  The
DenseMap BlocksByName is modelled as an association list (first match wins;
keys are inserted at most once), the DenseMap UndefinedBlocks as an
association list keyed by block index.  `insts` models the instruction
sequence attached to each basic block; this excerpt's instruction parser
validates syntax only and never constructs instructions, so no operation
below writes it — it exists to state frame properties. -/
structure SPFS where
  p : PState
  hadError : Bool
  blocksByName : List (String × Nat)
  undefinedBlocks : List (Nat × SourceLoc × String)
  nextBB : Nat
  insts : List (Nat × List ValueKind)
deriving DecidableEq

/-- Lookup in the BlocksByName table. -/
def lookupBB (m : List (String × Nat)) (name : String) : Option Nat :=
  match m with
  | [] => none
  | (n, b) :: rest => if n = name then some b else lookupBB rest name

/-- The block indices registered in a name table. -/
def bbIds (m : List (String × Nat)) : List Nat := m.map (fun e => e.2)

/-- The block indices present in the pending (undefined-blocks) set. -/
def pendKeys (u : List (Nat × SourceLoc × String)) : List Nat :=
  u.map (fun e => e.1)

/-- SILParserFunctionState::getBBForDefinition. -/
def SPFS.getBBForDefinition (s : SPFS) (name : String) (loc : SourceLoc) :
    Nat × SPFS :=
  match lookupBB s.blocksByName name with
  | none =>
      -- If the block has never been named yet, just create it.
      (s.nextBB, { s with blocksByName := s.blocksByName ++ [(name, s.nextBB)],
                          nextBB := s.nextBB + 1 })
  | some bb =>
      if bb ∈ pendKeys s.undefinedBlocks then
        -- A forward reference: erase it from the undefined set.
        (bb, { s with undefinedBlocks :=
                 s.undefinedBlocks.filter (fun e => decide (e.1 ≠ bb)) })
      else
        -- A redefinition: diagnose and return a new disconnected block,
        -- which is not entered into BlocksByName.
        (s.nextBB, { s with p := s.p.diag loc DiagKind.basicblock_redefinition,
                            hadError := true,
                            nextBB := s.nextBB + 1 })

/-- SILParserFunctionState::getBBForReference. -/
def SPFS.getBBForReference (s : SPFS) (name : String) (loc : SourceLoc) :
    Nat × SPFS :=
  match lookupBB s.blocksByName name with
  | some bb => (bb, s)
  | none =>
      (s.nextBB, { s with blocksByName := s.blocksByName ++ [(name, s.nextBB)],
                          undefinedBlocks :=
                            s.undefinedBlocks ++ [(s.nextBB, loc, name)],
                          nextBB := s.nextBB + 1 })

/-- SILParserFunctionState::diagnoseProblems, with the iteration order over
the UndefinedBlocks DenseMap made explicit: the C++ code iterates an
unordered hash table (its FIXME notes the nondeterministic order), so the
embedding takes the order as a parameter; any permutation of the pending
entries is a possible iteration order. -/
def SPFS.diagnoseProblemsWith (s : SPFS)
    (order : List (Nat × SourceLoc × String)) : Bool × SPFS :=
  let s := { s with p := { s.p with finalizeCount := s.p.finalizeCount + 1 } }
  if s.undefinedBlocks.isEmpty then (s.hadError, s)
  else
    let p' := order.foldl
      (fun q e => q.diag e.2.1 DiagKind.undefined_basicblock_use) s.p
    (true, { s with p := p', hadError := true })

/-- SILParserFunctionState::diagnoseProblems at one arbitrary but fixed
iteration order (insertion order of the model's association list). -/
def SPFS.diagnoseProblems (s : SPFS) : Bool × SPFS :=
  s.diagnoseProblemsWith s.undefinedBlocks

/-- parseSILLinkage (ParseSIL.cpp): parse an optional linkage specifier.
On the error path the C++ out parameter is left unassigned and is never read
by the caller; the accompanying value returned there is a placeholder. -/
def parseSILLinkage (p : PState) : Bool × SILLinkage × PState :=
  if p.tok.kind ≠ TokKind.identifier then (false, SILLinkage.External, p)
  else if p.tok.text = "internal" then (false, SILLinkage.Internal, p.consume)
  else if p.tok.text = "clang_thunk" then (false, SILLinkage.ClangThunk, p.consume)
  else (true, SILLinkage.External,
        p.diag p.tok.loc DiagKind.expected_sil_linkage_or_function)

/-- Modelled from the spec: the general-purpose embedded type grammar
(`P.parseType`, external to this excerpt).  A surface type is an identifier
token, consumed on success; otherwise the supplied diagnostic is emitted.
Result layout: (failed, surface type name, state). -/
def parseType (p : PState) (d : DiagKind) : Bool × String × PState :=
  if p.tok.kind = TokKind.identifier then (false, p.tok.text, p.consume)
  else (true, "", p.diag p.tok.loc d)

/-- The do-while attribute loop of parseSILType.  Each iteration first
consumes the opening bracket or the separating comma, reads the attribute
identifier, and dispatches on its text exactly as the source does (including
the source's extra `P.consumeToken(tok::identifier)` after a recognized
`sil_sret`).  Fuel bounds recursion; callers pass more fuel than tokens, and
every recursive call consumes at least one token.
Result layout: (failed, IsSRet, UncurryLevel, state). -/
def silTypeAttrLoop : Nat → Bool → Nat → PState → Bool × Bool × Nat × PState
  | 0, isSRet, uncurry, p => (true, isSRet, uncurry, p)
  | fuel + 1, isSRet, uncurry, p =>
    let p1 := p.consume
    let idr := p1.parseIdentifier DiagKind.expected_identifier_sil_type_attributes
    if idr.1 then (true, isSRet, uncurry, idr.2.2.2)
    else
      let attrLoc := idr.2.2.1
      let p2 := idr.2.2.2
      if idr.2.1 = "sil_sret" then
        let p3 := p2.consume
        if p3.tok.kind = TokKind.comma then silTypeAttrLoop fuel true uncurry p3
        else (false, true, uncurry, p3)
      else if idr.2.1 = "sil_uncurry" then
        let t1 := p2.parseToken TokKind.identifier DiagKind.malformed_sil_uncurry_attribute
        if t1.1 then (true, isSRet, uncurry, t1.2)
        else
          let t2 := t1.2.parseToken TokKind.equal DiagKind.malformed_sil_uncurry_attribute
          if t2.1 then (true, isSRet, uncurry, t2.2)
          else if t2.2.tok.kind ≠ TokKind.integer_literal then
            (true, isSRet, uncurry,
             t2.2.diag t2.2.tok.loc DiagKind.malformed_sil_uncurry_attribute)
          else
            match (t2.2.tok.text).toNat? with
            | none =>
              (true, isSRet, uncurry,
               t2.2.diag t2.2.tok.loc DiagKind.malformed_sil_uncurry_attribute)
            | some n =>
              let p3 := t2.2.consume
              if p3.tok.kind = TokKind.comma then silTypeAttrLoop fuel isSRet n p3
              else (false, isSRet, n, p3)
      else
        (true, isSRet, uncurry, p2.diag attrLoc DiagKind.unknown_sil_type_attribute)

/-- Whether one character list is an initial segment of another. -/
def charsPrefix : List Char → List Char → Bool
  | [], _ => true
  | _ :: _, [] => false
  | a :: pre, b :: rest => decide (a = b) && charsPrefix pre rest

/-- llvm::StringRef::startswith (external): the text starts with the given
literal. -/
def strStartsWith (s pre : String) : Bool := charsPrefix pre.data s.data

/-- The attribute-list phase of SILParserFunctionState::parseSILType: the
guarded entry test (an opening square bracket whose one-token lookahead is
an identifier with the sil underscore prefix), the attribute loop, and the
closing-bracket match.  Result layout: (failed, IsSRet, UncurryLevel,
state). -/
def parseSILTypeAttrs (p : PState) : Bool × Bool × Nat × PState :=
  if p.tok.kind = TokKind.l_square ∧ p.peekToken.kind = TokKind.identifier ∧
     strStartsWith p.peekToken.text "sil_" then
    let leftLoc := p.tok.loc
    let r := silTypeAttrLoop (p.toks.length + 1) false 0 p
    if r.1 then r
    else
      let m := (r.2.2.2).parseMatchingToken TokKind.r_square
                 DiagKind.expected_bracket_sil_type_attributes leftLoc
      (m.1, r.2.1, r.2.2.1, m.2)
  else (false, false, 0, p)

/-- SILParserFunctionState::parseSILType.  The out parameter `Result` is
modelled as an Option: it is `some` exactly on the success path.  The
type-checking / lowering call happens under a scoped override of the
ASTStage marker (llvm::SaveAndRestore, external: save on entry, restore on
every exit of the scope), and the oracle observes the overridden stage. -/
def parseSILType (chk : ASTStage → String → Bool) (p : PState) :
    Bool × Option SILType × PState :=
  let attr := parseSILTypeAttrs p
  if attr.1 then (true, none, attr.2.2.2)
  else
    let uncurryLevel := attr.2.2.1
    let p1 := attr.2.2.2
    let isAddress := p1.tok.kind = TokKind.oper ∧ p1.tok.text = "*"
    let p2 := if isAddress then p1.consume else p1
    let d := p2.parseToken TokKind.sil_dollar DiagKind.expected_sil_type
    if d.1 then (true, none, d.2)
    else
      let t := parseType d.2 DiagKind.expected_sil_type
      if t.1 then (true, none, t.2.2)
      else
        let p3 := t.2.2
        let saved := p3.astStage
        let p4 := { p3 with astStage := ASTStage.Parsed }
        let failed := chk p4.astStage t.2.1
        let p5 := { p4 with astStage := saved }
        if failed then (true, none, p5)
        else
          let result : SILType := ⟨t.2.1, uncurryLevel, false⟩
          (false, some (if isAddress then result.getAddressType else result), p5)

/-- SILParserFunctionState::parseTypedValueRef. -/
def parseTypedValueRef (chk : ASTStage → String → Bool) (p : PState) :
    Bool × PState :=
  let t := parseSILType chk p
  if t.1 then (true, t.2.2)
  else
    let c := (t.2.2).parseToken TokKind.colon DiagKind.expected_sil_colon_value_ref
    if c.1 then (true, c.2)
    else (c.2).parseToken TokKind.sil_local_name DiagKind.expected_sil_value_name

/-- The llvm::StringSwitch over the opcode text in parseSILOpcode: purely
textual matching, with ValueKind::SILArgument as the Default (unrecognized)
result. -/
def classifyOpcode (text : String) : ValueKind :=
  if text = "tuple" then ValueKind.TupleInst
  else if text = "return" then ValueKind.ReturnInst
  else ValueKind.SILArgument

/-- SILParserFunctionState::parseSILOpcode.
Result layout: (failed, opcode, opcode loc, opcode text, state). -/
def parseSILOpcode (p : PState) : Bool × ValueKind × SourceLoc × String × PState :=
  let opcodeLoc := p.tok.loc
  let opcodeName := p.tok.text
  let opcode := classifyOpcode opcodeName
  if opcode ≠ ValueKind.SILArgument then (false, opcode, opcodeLoc, opcodeName, p.consume)
  else (true, opcode, opcodeLoc, opcodeName,
        p.diag opcodeLoc DiagKind.expected_sil_instr_opcode)

/-- The tuple operand loop: while the current token is not ')', parse one
typed value reference.  Fuel bounds recursion as in silTypeAttrLoop. -/
def tupleOperands (chk : ASTStage → String → Bool) : Nat → PState → Bool × PState
  | 0, p => (true, p)
  | fuel + 1, p =>
    if p.tok.kind = TokKind.r_paren then (false, p)
    else
      let r := parseTypedValueRef chk p
      if r.1 then (true, r.2)
      else tupleOperands chk fuel r.2

/-- SILParserFunctionState::parseSILInstruction.  BB is the block the
instruction would be appended to; this excerpt validates syntax only and
builds no instruction, so BB is only threaded through. -/
def parseSILInstruction (chk : ASTStage → String → Bool) (BB : Nat)
    (p : PState) : Bool × PState :=
  if p.tok.kind ≠ TokKind.sil_local_name then
    (true, p.diag p.tok.loc DiagKind.expected_sil_instr_name)
  else if ¬ p.tok.atStartOfLine then
    (true, p.diag p.tok.loc DiagKind.expected_sil_instr_start_of_line)
  else
    let p1 := p.consume
    let e := p1.parseToken TokKind.equal DiagKind.expected_equal_in_sil_instr
    if e.1 then (true, e.2)
    else
      let op := parseSILOpcode e.2
      if op.1 then (true, op.2.2.2.2)
      else
        match op.2.1 with
        | ValueKind.TupleInst =>
          let l := (op.2.2.2.2).parseToken TokKind.l_paren
                     DiagKind.expected_tok_in_sil_instr
          if l.1 then (true, l.2)
          else
            let w := tupleOperands chk (l.2.toks.length + 1) l.2
            if w.1 then (true, w.2)
            else (false, (w.2).consume)
        | ValueKind.ReturnInst => parseTypedValueRef chk op.2.2.2.2
        | ValueKind.SILArgument => (true, op.2.2.2.2)

/-- The do-while instruction loop of parseSILBasicBlock. -/
def instLoop (chk : ASTStage → String → Bool) : Nat → Nat → SPFS → Bool × SPFS
  | 0, _, s => (true, s)
  | fuel + 1, BB, s =>
    let r := parseSILInstruction chk BB s.p
    if r.1 then (true, { s with p := r.2 })
    else if (r.2).tok.kind = TokKind.sil_local_name then
      instLoop chk fuel BB { s with p := r.2 }
    else (false, { s with p := r.2 })

/-- SILParserFunctionState::parseSILBasicBlock. -/
def SPFS.parseSILBasicBlock (chk : ASTStage → String → Bool) (s : SPFS) :
    Bool × SPFS :=
  let nm := s.p.parseIdentifier DiagKind.expected_sil_block_name
  if nm.1 then (true, { s with p := nm.2.2.2 })
  else
    let c := (nm.2.2.2).parseToken TokKind.colon DiagKind.expected_sil_block_colon
    if c.1 then (true, { s with p := c.2 })
    else
      let r := SPFS.getBBForDefinition { s with p := c.2 } nm.2.1 nm.2.2.1
      instLoop chk ((r.2).p.toks.length + 1) r.1 r.2

/-- The do-while basic-block loop of Parser::parseDeclSIL; a failing block
parse returns true immediately (the C++ `return true` inside the loop). -/
def blockLoop (chk : ASTStage → String → Bool) : Nat → SPFS → Bool × SPFS
  | 0, s => (true, s)
  | fuel + 1, s =>
    let r := s.parseSILBasicBlock chk
    if r.1 then (true, r.2)
    else if (r.2).p.tok.kind ≠ TokKind.r_brace ∧ (r.2).p.tok.kind ≠ TokKind.eof then
      blockLoop chk fuel r.2
    else (false, r.2)

/-- Parser::parseDeclSIL.  The Lexer::SILBodyRAII lexing-mode toggle is a
lexer concern outside this excerpt (tokens arrive pre-lexed).  The result is
the failure flag together with the final parser-level state. -/
def parseDeclSIL (chk : ASTStage → String → Bool) (p0 : PState) : Bool × PState :=
  let p := p0.consume
  let lk := parseSILLinkage p
  if lk.1 then (true, lk.2.2)
  else
    let a := (lk.2.2).parseToken TokKind.sil_at_sign DiagKind.expected_sil_function_name
    if a.1 then (true, a.2)
    else
      let nm := (a.2).parseIdentifier DiagKind.expected_sil_function_name
      if nm.1 then (true, nm.2.2.2)
      else
        let c := (nm.2.2.2).parseToken TokKind.colon DiagKind.expected_sil_type
        if c.1 then (true, c.2)
        else
          let ty := parseSILType chk c.2
          if ty.1 then (true, ty.2.2)
          else
            match ty.2.1 with
            | none => (true, ty.2.2)
            | some fnTy =>
              let pF := { ty.2.2 with
                          sil := (ty.2.2).sil ++ [⟨lk.2.1, nm.2.1, fnTy⟩] }
              let s0 : SPFS := { p := pF, hadError := false, blocksByName := [],
                                 undefinedBlocks := [], nextBB := 0, insts := [] }
              let lBraceLoc := pF.tok.loc
              if pF.tok.kind = TokKind.l_brace then
                let s1 := { s0 with p := pF.consume }
                let bl := blockLoop chk (s1.p.toks.length + 1) s1
                if bl.1 then (true, (bl.2).p)
                else
                  let mt := (bl.2).p.parseMatchingToken TokKind.r_brace
                              DiagKind.expected_sil_rbrace lBraceLoc
                  let dr := SPFS.diagnoseProblems { bl.2 with p := mt.2 }
                  (dr.1, (dr.2).p)
              else
                let dr := s0.diagnoseProblems
                (dr.1, (dr.2).p)

/-- One resolver operation, as issued during a single function's parse. -/
inductive BBOp where
  | ref (name : String) (loc : SourceLoc)
  | bbdef (name : String) (loc : SourceLoc)
deriving DecidableEq

/-- Whether an operation is a definition of the given name. -/
def BBOp.definesName (op : BBOp) (name : String) : Bool :=
  match op with
  | .bbdef n _ => decide (n = name)
  | .ref _ _ => false

/-- Run one resolver operation for its state effect. -/
def runOp (s : SPFS) : BBOp → SPFS
  | .ref n l => (s.getBBForReference n l).2
  | .bbdef n l => (s.getBBForDefinition n l).2

/-- Run a sequence of resolver operations. -/
def runOps (s : SPFS) : List BBOp → SPFS
  | [] => s
  | op :: rest => runOps (runOp s op) rest

/-- The empty parser-level state used by concrete witnesses. -/
def emptyP : PState :=
  { toks := [], diags := [], astStage := ASTStage.Parsing, sil := [],
    finalizeCount := 0 }

/-- The initial per-function state (fresh SILParserFunctionState). -/
def emptySPFS : SPFS :=
  { p := emptyP, hadError := false, blocksByName := [], undefinedBlocks := [],
    nextBB := 0, insts := [] }

/-- A one-token state whose token text is the tuple mnemonic; its kind is
deliberately not `identifier`, mirroring a lexer that reports a reserved
word, to exercise the purely textual matching. -/
def pTuple : PState :=
  { toks := [{ kind := TokKind.kw_return, text := "tuple", loc := 7,
               atStartOfLine := true }],
    diags := [], astStage := ASTStage.Parsing, sil := [], finalizeCount := 0 }

/-- A one-token state with unrecognized opcode text. -/
def pBogus : PState :=
  { toks := [{ kind := TokKind.identifier, text := "branch", loc := 9,
               atStartOfLine := true }],
    diags := [], astStage := ASTStage.Parsing, sil := [], finalizeCount := 0 }

/-- A one-token state holding the identifier `internal`. -/
def pInternal : PState :=
  { toks := [{ kind := TokKind.identifier, text := "internal", loc := 2 }],
    diags := [], astStage := ASTStage.Parsing, sil := [], finalizeCount := 0 }

/-- A one-token state holding an unrecognized linkage identifier. -/
def pPublic : PState :=
  { toks := [{ kind := TokKind.identifier, text := "public", loc := 2 }],
    diags := [], astStage := ASTStage.Parsing, sil := [], finalizeCount := 0 }

/-- A lowering oracle that always succeeds. -/
def chkNever : ASTStage → String → Bool := fun _ _ => false

/-- A lowering oracle that fails exactly at the Parsing stage; it agrees
with chkNever at the Parsed stage. -/
def chkParsingOnly : ASTStage → String → Bool :=
  fun st _ => decide (st = ASTStage.Parsing)

/-- A token stream holding one well-formed SIL type `$T`. -/
def pTypeToks : PState :=
  { toks := [{ kind := TokKind.sil_dollar, text := "$", loc := 1 },
             { kind := TokKind.identifier, text := "T", loc := 2 }],
    diags := [], astStage := ASTStage.Parsing, sil := [], finalizeCount := 0 }

/-- A token stream beginning with a bracketed non-sil identifier. -/
def pBracketBogus : PState :=
  { toks := [{ kind := TokKind.l_square, text := "[", loc := 4 },
             { kind := TokKind.identifier, text := "bogus", loc := 5 },
             { kind := TokKind.r_square, text := "]", loc := 6 }],
    diags := [], astStage := ASTStage.Parsing, sil := [], finalizeCount := 0 }

/-- The token stream of `sil @f : [sil_bogus] $T { }`. -/
def pC8 : PState :=
  { toks := [{ kind := TokKind.kw_sil, text := "sil", loc := 0 },
             { kind := TokKind.sil_at_sign, text := "@", loc := 1 },
             { kind := TokKind.identifier, text := "f", loc := 2 },
             { kind := TokKind.colon, text := ":", loc := 3 },
             { kind := TokKind.l_square, text := "[", loc := 4 },
             { kind := TokKind.identifier, text := "sil_bogus", loc := 5 },
             { kind := TokKind.r_square, text := "]", loc := 6 },
             { kind := TokKind.sil_dollar, text := "$", loc := 7 },
             { kind := TokKind.identifier, text := "T", loc := 8 },
             { kind := TokKind.l_brace, text := "\x7b", loc := 9 },
             { kind := TokKind.r_brace, text := "\x7d", loc := 10 }],
    diags := [], astStage := ASTStage.Parsing, sil := [], finalizeCount := 0 }

/-- The token stream of scenario A, `sil @f : $T { bb0: %0 = tuple ()
return $T : %0 }`, with every instruction starting a line. -/
def pC3good : PState :=
  { toks := [{ kind := TokKind.kw_sil, text := "sil", loc := 0 },
             { kind := TokKind.sil_at_sign, text := "@", loc := 1 },
             { kind := TokKind.identifier, text := "f", loc := 2 },
             { kind := TokKind.colon, text := ":", loc := 3 },
             { kind := TokKind.sil_dollar, text := "$", loc := 4 },
             { kind := TokKind.identifier, text := "T", loc := 5 },
             { kind := TokKind.l_brace, text := "\x7b", loc := 6 },
             { kind := TokKind.identifier, text := "bb0", loc := 7 },
             { kind := TokKind.colon, text := ":", loc := 8 },
             { kind := TokKind.sil_local_name, text := "%0", loc := 9,
               atStartOfLine := true },
             { kind := TokKind.equal, text := "=", loc := 10 },
             { kind := TokKind.identifier, text := "tuple", loc := 11 },
             { kind := TokKind.l_paren, text := "(", loc := 12 },
             { kind := TokKind.r_paren, text := ")", loc := 13 },
             { kind := TokKind.sil_local_name, text := "%1", loc := 14,
               atStartOfLine := true },
             { kind := TokKind.equal, text := "=", loc := 15 },
             { kind := TokKind.kw_return, text := "return", loc := 16 },
             { kind := TokKind.sil_dollar, text := "$", loc := 17 },
             { kind := TokKind.identifier, text := "T", loc := 18 },
             { kind := TokKind.colon, text := ":", loc := 19 },
             { kind := TokKind.sil_local_name, text := "%0", loc := 20 },
             { kind := TokKind.r_brace, text := "\x7d", loc := 21 }],
    diags := [], astStage := ASTStage.Parsing, sil := [], finalizeCount := 0 }

/-- The token stream of `sil @g : $T { bb0: oops`: the body is present (the
opening brace is consumed and block bb0 starts), and the first instruction
parse fails on the identifier oops. -/
def pC3bad : PState :=
  { toks := [{ kind := TokKind.kw_sil, text := "sil", loc := 0 },
             { kind := TokKind.sil_at_sign, text := "@", loc := 1 },
             { kind := TokKind.identifier, text := "g", loc := 2 },
             { kind := TokKind.colon, text := ":", loc := 3 },
             { kind := TokKind.sil_dollar, text := "$", loc := 4 },
             { kind := TokKind.identifier, text := "T", loc := 5 },
             { kind := TokKind.l_brace, text := "\x7b", loc := 6 },
             { kind := TokKind.identifier, text := "bb0", loc := 7 },
             { kind := TokKind.colon, text := ":", loc := 8 },
             { kind := TokKind.identifier, text := "oops", loc := 9 }],
    diags := [], astStage := ASTStage.Parsing, sil := [], finalizeCount := 0 }

/-- A function-parse state with two pending forward references, bb1 first
referenced at location 1 and bb2 at location 2. -/
def sC4 : SPFS :=
  ((emptySPFS.getBBForReference "bb1" 1).2.getBBForReference "bb2" 2).2

/-! Resolver theory: well-formedness of the per-function block tables and
rewrite lemmas for the four behaviours of the two resolver entry points. -/

/-- Well-formedness of a function-parse state: registered block indices are
pairwise distinct and below the allocation counter, every pending entry is
the block registered under its recorded name, and pending keys are pairwise
distinct.  This holds for the empty state and is preserved by both resolver
operations. -/
def WF (s : SPFS) : Prop :=
  (bbIds s.blocksByName).Nodup ∧
  (∀ b ∈ bbIds s.blocksByName, b < s.nextBB) ∧
  (∀ e ∈ s.undefinedBlocks, lookupBB s.blocksByName e.2.2 = some e.1) ∧
  (pendKeys s.undefinedBlocks).Nodup

instance (s : SPFS) : Decidable (WF s) := by
  unfold WF; infer_instance

lemma lookupBB_append_some {m m' : List (String × Nat)} {n : String} {b : Nat}
    (h : lookupBB m n = some b) : lookupBB (m ++ m') n = some b := by
  induction m with
  | nil => simp [lookupBB] at h
  | cons e rest ih =>
    by_cases he : e.1 = n
    · simpa [lookupBB, he] using h
    · rw [List.cons_append, lookupBB, if_neg he]
      rw [lookupBB, if_neg he] at h
      exact ih h

lemma lookupBB_append_none {m m' : List (String × Nat)} {n : String}
    (h : lookupBB m n = none) : lookupBB (m ++ m') n = lookupBB m' n := by
  induction m with
  | nil => simp [lookupBB]
  | cons e rest ih =>
    by_cases he : e.1 = n
    · rw [lookupBB, if_pos he] at h; cases h
    · rw [lookupBB, if_neg he] at h
      rw [List.cons_append, lookupBB, if_neg he]
      exact ih h

lemma lookupBB_mem {m : List (String × Nat)} {n : String} {b : Nat}
    (h : lookupBB m n = some b) : (n, b) ∈ m := by
  induction m with
  | nil => simp [lookupBB] at h
  | cons e rest ih =>
    by_cases he : e.1 = n
    · rw [lookupBB, if_pos he] at h
      obtain ⟨e1, e2⟩ := e
      cases h
      simp only at he
      subst he
      exact List.mem_cons_self _ _
    · rw [lookupBB, if_neg he] at h
      exact List.mem_cons_of_mem _ (ih h)

lemma mem_bbIds_of_lookup {m : List (String × Nat)} {n : String} {b : Nat}
    (h : lookupBB m n = some b) : b ∈ bbIds m :=
  List.mem_map.mpr ⟨(n, b), lookupBB_mem h, rfl⟩

lemma bbIds_inj {m : List (String × Nat)} (hn : (bbIds m).Nodup)
    {n1 n2 : String} {b : Nat} (h1 : (n1, b) ∈ m) (h2 : (n2, b) ∈ m) :
    n1 = n2 := by
  induction m with
  | nil => cases h1
  | cons e rest ih =>
    have hn2 : e.2 ∉ bbIds rest ∧ (bbIds rest).Nodup := by
      simpa [bbIds] using hn
    rcases List.mem_cons.mp h1 with h1 | h1 <;>
      rcases List.mem_cons.mp h2 with h2 | h2
    · exact congrArg Prod.fst (h1.trans h2.symm)
    · exfalso
      apply hn2.1
      have hb : b = e.2 := congrArg Prod.snd h1
      rw [← hb]
      exact List.mem_map.mpr ⟨(n2, b), h2, rfl⟩
    · exfalso
      apply hn2.1
      have hb : b = e.2 := congrArg Prod.snd h2
      rw [← hb]
      exact List.mem_map.mpr ⟨(n1, b), h1, rfl⟩
    · exact ih hn2.2 h1 h2

lemma lookupBB_ne {m : List (String × Nat)} (hn : (bbIds m).Nodup)
    {n1 n2 : String} {b1 b2 : Nat} (hne : n1 ≠ n2)
    (h1 : lookupBB m n1 = some b1) (h2 : lookupBB m n2 = some b2) :
    b1 ≠ b2 := by
  intro he
  subst he
  exact hne (bbIds_inj hn (lookupBB_mem h1) (lookupBB_mem h2))

lemma nodup_snoc {l : List Nat} {a : Nat} (h : l.Nodup) (ha : a ∉ l) :
    (l ++ [a]).Nodup := by
  simp [List.nodup_append, h, ha]

lemma pendKeys_lt {u : List (Nat × SourceLoc × String)}
    {m : List (String × Nat)} {N : Nat}
    (hpend : ∀ e ∈ u, lookupBB m e.2.2 = some e.1)
    (hlt : ∀ b ∈ bbIds m, b < N) : ∀ k ∈ pendKeys u, k < N := by
  intro k hk
  obtain ⟨e, he, rfl⟩ := List.mem_map.mp hk
  exact hlt _ (mem_bbIds_of_lookup (hpend e he))

/-- getBBForReference on an already-registered name: return the existing
block, leaving the whole state unchanged. -/
lemma getBBForReference_existing (s : SPFS) (name : String) (loc : SourceLoc)
    {bb : Nat} (h : lookupBB s.blocksByName name = some bb) :
    s.getBBForReference name loc = (bb, s) := by
  unfold SPFS.getBBForReference
  rw [h]

/-- getBBForReference on an unseen name: allocate a fresh block, register it
and record it as pending. -/
lemma getBBForReference_fresh (s : SPFS) (name : String) (loc : SourceLoc)
    (h : lookupBB s.blocksByName name = none) :
    s.getBBForReference name loc =
      (s.nextBB,
       { s with blocksByName := s.blocksByName ++ [(name, s.nextBB)],
                undefinedBlocks := s.undefinedBlocks ++ [(s.nextBB, loc, name)],
                nextBB := s.nextBB + 1 }) := by
  unfold SPFS.getBBForReference
  rw [h]

/-- getBBForDefinition on an unseen name: allocate and register a fresh
block; the pending set is untouched. -/
lemma getBBForDefinition_fresh (s : SPFS) (name : String) (loc : SourceLoc)
    (h : lookupBB s.blocksByName name = none) :
    s.getBBForDefinition name loc =
      (s.nextBB,
       { s with blocksByName := s.blocksByName ++ [(name, s.nextBB)],
                nextBB := s.nextBB + 1 }) := by
  unfold SPFS.getBBForDefinition
  rw [h]

/-- getBBForDefinition on a pending forward reference: return the existing
block and erase it from the pending set. -/
lemma getBBForDefinition_pending (s : SPFS) (name : String) (loc : SourceLoc)
    {bb : Nat} (h : lookupBB s.blocksByName name = some bb)
    (hp : bb ∈ pendKeys s.undefinedBlocks) :
    s.getBBForDefinition name loc =
      (bb, { s with undefinedBlocks :=
               s.undefinedBlocks.filter (fun e => decide (e.1 ≠ bb)) }) := by
  unfold SPFS.getBBForDefinition
  rw [h]
  simp only [if_pos hp]

/-- getBBForDefinition on an already-defined name: diagnose the
redefinition, set the error flag, and return a fresh block that is not
entered into the name table. -/
lemma getBBForDefinition_redef (s : SPFS) (name : String) (loc : SourceLoc)
    {bb : Nat} (h : lookupBB s.blocksByName name = some bb)
    (hp : bb ∉ pendKeys s.undefinedBlocks) :
    s.getBBForDefinition name loc =
      (s.nextBB,
       { s with p := s.p.diag loc DiagKind.basicblock_redefinition,
                hadError := true,
                nextBB := s.nextBB + 1 }) := by
  unfold SPFS.getBBForDefinition
  rw [h]
  simp only [if_neg hp]

lemma bbIds_append (m : List (String × Nat)) (n : String) (b : Nat) :
    bbIds (m ++ [(n, b)]) = bbIds m ++ [b] := by simp [bbIds]

lemma pendKeys_append (u : List (Nat × SourceLoc × String))
    (x : Nat × SourceLoc × String) :
    pendKeys (u ++ [x]) = pendKeys u ++ [x.1] := by simp [pendKeys]

lemma not_mem_pendKeys_filter (u : List (Nat × SourceLoc × String)) (bb : Nat) :
    bb ∉ pendKeys (u.filter (fun e => decide (e.1 ≠ bb))) := by
  intro h
  simp only [pendKeys] at h
  obtain ⟨e, he, heq⟩ := List.mem_map.mp h
  have hpred := (List.mem_filter.mp he).2
  rw [show e.1 = bb from heq] at hpred
  simp at hpred

/-- Well-formedness is preserved when a fresh block is registered and added
to the pending set (the getBBForReference miss path). -/
lemma WF_ref_extend (s : SPFS) (n : String) (l : SourceLoc) (hwf : WF s)
    (hln : lookupBB s.blocksByName n = none) :
    WF { s with blocksByName := s.blocksByName ++ [(n, s.nextBB)],
                undefinedBlocks := s.undefinedBlocks ++ [(s.nextBB, l, n)],
                nextBB := s.nextBB + 1 } := by
  obtain ⟨hids, hlt, hpend, hpk⟩ := hwf
  refine ⟨?_, ?_, ?_, ?_⟩
  · rw [bbIds_append]
    exact nodup_snoc hids (fun hmem => absurd (hlt _ hmem) (lt_irrefl _))
  · rw [bbIds_append]
    intro b hb
    rcases List.mem_append.mp hb with h | h
    · exact Nat.lt_succ_of_lt (hlt _ h)
    · simp only [List.mem_singleton] at h
      rw [h]; exact Nat.lt_succ_self _
  · intro e he
    rcases List.mem_append.mp he with h | h
    · exact lookupBB_append_some (hpend e h)
    · simp only [List.mem_singleton] at h
      rw [h]
      rw [lookupBB_append_none hln]
      simp [lookupBB]
  · rw [pendKeys_append]
    refine nodup_snoc hpk (fun hmem => ?_)
    exact absurd (pendKeys_lt hpend hlt _ hmem) (lt_irrefl _)

/-- Well-formedness is preserved when a fresh block is registered as defined
(the getBBForDefinition miss path). -/
lemma WF_def_extend (s : SPFS) (n : String) (hwf : WF s)
    (hln : lookupBB s.blocksByName n = none) :
    WF { s with blocksByName := s.blocksByName ++ [(n, s.nextBB)],
                nextBB := s.nextBB + 1 } := by
  obtain ⟨hids, hlt, hpend, hpk⟩ := hwf
  refine ⟨?_, ?_, ?_, ?_⟩
  · rw [bbIds_append]
    exact nodup_snoc hids (fun hmem => absurd (hlt _ hmem) (lt_irrefl _))
  · rw [bbIds_append]
    intro b hb
    rcases List.mem_append.mp hb with h | h
    · exact Nat.lt_succ_of_lt (hlt _ h)
    · simp only [List.mem_singleton] at h
      rw [h]; exact Nat.lt_succ_self _
  · exact fun e he => lookupBB_append_some (hpend e he)
  · exact hpk

/-- Well-formedness is preserved by erasing a pending entry (the
getBBForDefinition forward-reference path). -/
lemma WF_erase (s : SPFS) (bb : Nat) (hwf : WF s) :
    WF { s with undefinedBlocks :=
           s.undefinedBlocks.filter (fun e => decide (e.1 ≠ bb)) } := by
  obtain ⟨hids, hlt, hpend, hpk⟩ := hwf
  refine ⟨hids, hlt, ?_, ?_⟩
  · exact fun e he => hpend e (List.mem_filter.mp he).1
  · have hsub := List.filter_sublist
      (l := s.undefinedBlocks) (p := fun e => decide (e.1 ≠ bb))
    simp only [pendKeys]
    exact List.Nodup.sublist (List.Sublist.map _ hsub) hpk

/-- Well-formedness is preserved by a redefinition (fresh block allocated,
no table change). -/
lemma WF_redef (s : SPFS) (loc : SourceLoc) (hwf : WF s) :
    WF { s with p := s.p.diag loc DiagKind.basicblock_redefinition,
                hadError := true, nextBB := s.nextBB + 1 } := by
  obtain ⟨hids, hlt, hpend, hpk⟩ := hwf
  exact ⟨hids, fun b hb => Nat.lt_succ_of_lt (hlt b hb), hpend, hpk⟩

/-- One resolver operation that is not a definition of `name` preserves
well-formedness, the table entry of `name`, and its pending status. -/
lemma track_preserve (s : SPFS) (name : String) (bb : Nat) (op : BBOp)
    (hwf : WF s)
    (hl : lookupBB s.blocksByName name = some bb)
    (hp : bb ∈ pendKeys s.undefinedBlocks)
    (hop : op.definesName name = false) :
    WF (runOp s op) ∧ lookupBB (runOp s op).blocksByName name = some bb ∧
      bb ∈ pendKeys (runOp s op).undefinedBlocks := by
  cases op with
  | ref n l =>
    cases hln : lookupBB s.blocksByName n with
    | some b2 =>
      simp only [runOp, getBBForReference_existing s n l hln]
      exact ⟨hwf, hl, hp⟩
    | none =>
      simp only [runOp, getBBForReference_fresh s n l hln]
      refine ⟨WF_ref_extend s n l hwf hln, lookupBB_append_some hl, ?_⟩
      rw [pendKeys_append]
      exact List.mem_append_left _ hp
  | bbdef n l =>
    have hne : n ≠ name := by simpa [BBOp.definesName] using hop
    cases hln : lookupBB s.blocksByName n with
    | none =>
      simp only [runOp, getBBForDefinition_fresh s n l hln]
      exact ⟨WF_def_extend s n hwf hln, lookupBB_append_some hl, hp⟩
    | some b2 =>
      by_cases hmem : b2 ∈ pendKeys s.undefinedBlocks
      · simp only [runOp, getBBForDefinition_pending s n l hln hmem]
        have hbne : bb ≠ b2 := lookupBB_ne hwf.1 (Ne.symm hne) hl hln
        refine ⟨WF_erase s b2 hwf, hl, ?_⟩
        simp only [pendKeys] at hp ⊢
        obtain ⟨e, he, heq⟩ := List.mem_map.mp hp
        refine List.mem_map.mpr ⟨e, List.mem_filter.mpr ⟨he, ?_⟩, heq⟩
        simp [show e.1 = bb from heq, hbne]
      · simp only [runOp, getBBForDefinition_redef s n l hln hmem]
        exact ⟨WF_redef s l hwf, hl, hp⟩

/-- A sequence of resolver operations none of which defines `name`
preserves well-formedness, the table entry of `name`, and its pending
status. -/
lemma track_preserve_runOps (ops : List BBOp) (s : SPFS) (name : String)
    (bb : Nat) (hwf : WF s)
    (hl : lookupBB s.blocksByName name = some bb)
    (hp : bb ∈ pendKeys s.undefinedBlocks)
    (hops : ∀ op ∈ ops, op.definesName name = false) :
    WF (runOps s ops) ∧
      lookupBB (runOps s ops).blocksByName name = some bb ∧
      bb ∈ pendKeys (runOps s ops).undefinedBlocks := by
  induction ops generalizing s with
  | nil => exact ⟨hwf, hl, hp⟩
  | cons op rest ih =>
    have h1 := track_preserve s name bb op hwf hl hp
      (hops op (List.mem_cons_self _ _))
    simp only [runOps]
    exact ih (runOp s op) h1.1 h1.2.1 h1.2.2
      (fun o ho => hops o (List.mem_cons_of_mem _ ho))

/-- C1: a block name first resolved through getBBForReference while unseen,
and later resolved through getBBForDefinition — with arbitrary intervening
resolver traffic that does not define that name — yields the same block
identity from both calls, and the definition call removes that block from
the pending (undefined-blocks) set, to which it belonged until then. -/
theorem C1_forward_reference_definition_identity
    (s : SPFS) (name : String) (loc loc' : SourceLoc) (ops : List BBOp)
    (hwf : WF s) (hnew : lookupBB s.blocksByName name = none)
    (hops : ∀ op ∈ ops, op.definesName name = false) :
    ((runOps (s.getBBForReference name loc).2 ops).getBBForDefinition
        name loc').1 = (s.getBBForReference name loc).1 ∧
    (s.getBBForReference name loc).1 ∈
      pendKeys (runOps (s.getBBForReference name loc).2 ops).undefinedBlocks ∧
    (s.getBBForReference name loc).1 ∉
      pendKeys ((runOps (s.getBBForReference name loc).2 ops).getBBForDefinition
          name loc').2.undefinedBlocks := by
  rw [getBBForReference_fresh s name loc hnew]
  dsimp only
  have hinit := WF_ref_extend s name loc hwf hnew
  have hlook : lookupBB (s.blocksByName ++ [(name, s.nextBB)]) name
      = some s.nextBB := by
    rw [lookupBB_append_none hnew]
    simp [lookupBB]
  have hmem : s.nextBB ∈ pendKeys (s.undefinedBlocks ++ [(s.nextBB, loc, name)]) := by
    rw [pendKeys_append]
    exact List.mem_append_right _ (List.mem_singleton.mpr rfl)
  obtain ⟨hwf2, hl2, hp2⟩ :=
    track_preserve_runOps ops _ name s.nextBB hinit hlook hmem hops
  rw [getBBForDefinition_pending _ name loc' hl2 hp2]
  exact ⟨rfl, hp2, not_mem_pendKeys_filter _ _⟩

theorem C1_forward_reference_definition_identity_witness :
    (((runOps (emptySPFS.getBBForReference "bb1" 3).2
        [BBOp.ref "bb2" 4, BBOp.bbdef "bb2" 5]).getBBForDefinition "bb1" 9).1
      = (emptySPFS.getBBForReference "bb1" 3).1) ∧
    (emptySPFS.getBBForReference "bb1" 3).1 ∉
      pendKeys (((runOps (emptySPFS.getBBForReference "bb1" 3).2
        [BBOp.ref "bb2" 4, BBOp.bbdef "bb2" 5]).getBBForDefinition
          "bb1" 9).2.undefinedBlocks) :=
  let h := C1_forward_reference_definition_identity emptySPFS "bb1" 3 9
    [BBOp.ref "bb2" 4, BBOp.bbdef "bb2" 5] (by decide) (by decide) (by decide)
  ⟨h.1, h.2.2⟩

/-- C2: getBBForDefinition on a name that is already defined (registered and
not pending) emits exactly one Redefinition diagnostic, sets the error flag,
and returns a fresh block distinct from the registered one and absent from
the name table; the name table, the pending set, the name-table entry for
that name, and every block's attached instruction sequence are unchanged. -/
theorem C2_redefinition_disconnected_block
    (s : SPFS) (name : String) (loc : SourceLoc) (bb : Nat)
    (hwf : WF s)
    (hname : lookupBB s.blocksByName name = some bb)
    (hdef : bb ∉ pendKeys s.undefinedBlocks) :
    ((s.getBBForDefinition name loc).1 ≠ bb) ∧
    (s.getBBForDefinition name loc).1 ∉ bbIds s.blocksByName ∧
    ((s.getBBForDefinition name loc).2.p.diags
        = s.p.diags ++ [(loc, DiagKind.basicblock_redefinition)]) ∧
    (s.getBBForDefinition name loc).2.hadError = true ∧
    (s.getBBForDefinition name loc).2.blocksByName = s.blocksByName ∧
    lookupBB (s.getBBForDefinition name loc).2.blocksByName name = some bb ∧
    (s.getBBForDefinition name loc).2.undefinedBlocks = s.undefinedBlocks ∧
    (s.getBBForDefinition name loc).2.insts = s.insts := by
  rw [getBBForDefinition_redef s name loc hname hdef]
  dsimp only
  refine ⟨?_, ?_, rfl, rfl, rfl, hname, rfl, rfl⟩
  · intro he
    have hlt := hwf.2.1 bb (mem_bbIds_of_lookup hname)
    rw [← he] at hlt
    exact absurd hlt (lt_irrefl _)
  · intro hmem
    exact absurd (hwf.2.1 _ hmem) (lt_irrefl _)

theorem C2_redefinition_disconnected_block_witness :
    ((((emptySPFS.getBBForDefinition "bb0" 1).2).getBBForDefinition "bb0" 2).1 ≠ 0) ∧
    ((((emptySPFS.getBBForDefinition "bb0" 1).2).getBBForDefinition "bb0" 2).2.p.diags
      = ((emptySPFS.getBBForDefinition "bb0" 1).2).p.diags
          ++ [(2, DiagKind.basicblock_redefinition)]) ∧
    ((((emptySPFS.getBBForDefinition "bb0" 1).2).getBBForDefinition
        "bb0" 2).2.blocksByName
      = ((emptySPFS.getBBForDefinition "bb0" 1).2).blocksByName) :=
  let h := C2_redefinition_disconnected_block
    (emptySPFS.getBBForDefinition "bb0" 1).2 "bb0" 2 0
    (by decide) (by decide) (by decide)
  ⟨h.1, h.2.2.1, h.2.2.2.2.1⟩

/-- C7 counterexample: define bb0 (block 0), redefine bb0 (the redefinition
returns placeholder block 1), then call getBBForReference on bb0: the
reference returns the original block 0 and leaves the state — in particular
the pending set, which stays empty — completely unchanged.  It is therefore
not treated as a new forward reference (no fresh block, no pending entry);
it links to the originally registered block rather than the placeholder. -/
theorem C7_counterexample :
    ((emptySPFS.getBBForDefinition "bb0" 1).2.getBBForDefinition "bb0" 2).1 = 1 ∧
    (((emptySPFS.getBBForDefinition "bb0" 1).2.getBBForDefinition
        "bb0" 2).2.getBBForReference "bb0" 3).1 = 0 ∧
    (((emptySPFS.getBBForDefinition "bb0" 1).2.getBBForDefinition
        "bb0" 2).2.getBBForReference "bb0" 3).2
      = ((emptySPFS.getBBForDefinition "bb0" 1).2.getBBForDefinition "bb0" 2).2 ∧
    (((emptySPFS.getBBForDefinition "bb0" 1).2.getBBForDefinition
        "bb0" 2).2.getBBForReference "bb0" 3).2.undefinedBlocks = [] := by
  decide

/-- C7 amended: after a block-name redefinition inside one function, a later
getBBForReference on the same name returns the originally registered block —
which is distinct from the disconnected placeholder the redefinition
returned — and leaves the resolver state unchanged: it is neither treated as
a new forward reference nor linked to the placeholder. -/
theorem C7_reference_after_redefinition
    (s : SPFS) (name : String) (loc1 loc2 loc3 : SourceLoc)
    (hwf : WF s) (hnew : lookupBB s.blocksByName name = none) :
    ((((s.getBBForDefinition name loc1).2.getBBForDefinition
        name loc2).2.getBBForReference name loc3).1
      = (s.getBBForDefinition name loc1).1) ∧
    ((((s.getBBForDefinition name loc1).2.getBBForDefinition
        name loc2).2.getBBForReference name loc3).1
      ≠ ((s.getBBForDefinition name loc1).2.getBBForDefinition name loc2).1) ∧
    ((((s.getBBForDefinition name loc1).2.getBBForDefinition
        name loc2).2.getBBForReference name loc3).2
      = ((s.getBBForDefinition name loc1).2.getBBForDefinition name loc2).2) := by
  rw [getBBForDefinition_fresh s name loc1 hnew]
  dsimp only
  have hl1 : lookupBB (s.blocksByName ++ [(name, s.nextBB)]) name
      = some s.nextBB := by
    rw [lookupBB_append_none hnew]
    simp [lookupBB]
  have hnp : s.nextBB ∉ pendKeys s.undefinedBlocks := fun hmem =>
    absurd (pendKeys_lt hwf.2.2.1 hwf.2.1 _ hmem) (lt_irrefl _)
  rw [getBBForDefinition_redef
    { s with blocksByName := s.blocksByName ++ [(name, s.nextBB)],
             nextBB := s.nextBB + 1 } name loc2 hl1 hnp]
  dsimp only
  rw [getBBForReference_existing
    { s with p := s.p.diag loc2 DiagKind.basicblock_redefinition,
             hadError := true,
             blocksByName := s.blocksByName ++ [(name, s.nextBB)],
             nextBB := s.nextBB + 1 + 1 } name loc3 hl1]
  exact ⟨rfl, Nat.ne_of_lt (Nat.lt_succ_self _), rfl⟩

theorem C7_reference_after_redefinition_witness :
    ((((emptySPFS.getBBForDefinition "bb7" 1).2.getBBForDefinition
        "bb7" 2).2.getBBForReference "bb7" 3).1
      = (emptySPFS.getBBForDefinition "bb7" 1).1) ∧
    ((((emptySPFS.getBBForDefinition "bb7" 1).2.getBBForDefinition
        "bb7" 2).2.getBBForReference "bb7" 3).1
      ≠ ((emptySPFS.getBBForDefinition "bb7" 1).2.getBBForDefinition "bb7" 2).1) :=
  let h := C7_reference_after_redefinition emptySPFS "bb7" 1 2 3
    (by decide) (by decide)
  ⟨h.1, h.2.1⟩

/-- C5: parseSILOpcode is total and purely textual.  Its classification
result always equals `classifyOpcode` of the current token's text — a total
function of the text alone, independent of the token's kind (so the host
grammar's keyword table does not participate) and of all other parser
state — and it fails exactly when that classification is the Default
(unrecognized) value.  'tuple' maps to TupleInst and 'return' to ReturnInst,
both consuming the token; any other text fails with the
expected_sil_instr_opcode (UnknownOpcode) diagnostic at the token's
location, leaving the token stream unconsumed. -/
theorem C5_parseSILOpcode_total_textual (p : PState) :
    ((parseSILOpcode p).2.1 = classifyOpcode p.tok.text) ∧
    ((parseSILOpcode p).1 = true ↔
        classifyOpcode p.tok.text = ValueKind.SILArgument) ∧
    (p.tok.text = "tuple" →
      parseSILOpcode p
        = (false, ValueKind.TupleInst, p.tok.loc, p.tok.text, p.consume)) ∧
    (p.tok.text = "return" →
      parseSILOpcode p
        = (false, ValueKind.ReturnInst, p.tok.loc, p.tok.text, p.consume)) ∧
    (p.tok.text ≠ "tuple" → p.tok.text ≠ "return" →
      parseSILOpcode p
        = (true, ValueKind.SILArgument, p.tok.loc, p.tok.text,
           p.diag p.tok.loc DiagKind.expected_sil_instr_opcode) ∧
      (parseSILOpcode p).2.2.2.2.toks = p.toks) := by
  refine ⟨?_, ?_, ?_, ?_, ?_⟩
  · by_cases hc : classifyOpcode p.tok.text = ValueKind.SILArgument <;>
      simp [parseSILOpcode, hc]
  · by_cases hc : classifyOpcode p.tok.text = ValueKind.SILArgument <;>
      simp [parseSILOpcode, hc]
  · intro h
    simp [parseSILOpcode, classifyOpcode, h]
  · intro h
    simp [parseSILOpcode, classifyOpcode, h]
  · intro h1 h2
    constructor
    · simp [parseSILOpcode, classifyOpcode, h1, h2]
    · simp [parseSILOpcode, classifyOpcode, h1, h2, PState.diag]

theorem C5_parseSILOpcode_total_textual_witness :
    (parseSILOpcode pTuple
      = (false, ValueKind.TupleInst, pTuple.tok.loc, pTuple.tok.text,
         pTuple.consume)) ∧
    (parseSILOpcode pBogus
      = (true, ValueKind.SILArgument, pBogus.tok.loc, pBogus.tok.text,
         pBogus.diag pBogus.tok.loc DiagKind.expected_sil_instr_opcode)) ∧
    (parseSILOpcode pBogus).2.2.2.2.toks = pBogus.toks :=
  ⟨(C5_parseSILOpcode_total_textual pTuple).2.2.1 (by decide),
   ((C5_parseSILOpcode_total_textual pBogus).2.2.2.2 (by decide) (by decide)).1,
   ((C5_parseSILOpcode_total_textual pBogus).2.2.2.2 (by decide) (by decide)).2⟩

/-- C9: parseSILLinkage returns External without consuming a token when the
linkage position does not hold an identifier; returns Internal for the
identifier 'internal' and ClangThunk for 'clang_thunk', consuming the
identifier; and for any other identifier emits the
expected_sil_linkage_or_function (UnknownLinkage) diagnostic at that token
and fails rather than silently defaulting. -/
theorem C9_parseSILLinkage_spec (p : PState) :
    (p.tok.kind ≠ TokKind.identifier →
      parseSILLinkage p = (false, SILLinkage.External, p)) ∧
    (p.tok.kind = TokKind.identifier → p.tok.text = "internal" →
      parseSILLinkage p = (false, SILLinkage.Internal, p.consume)) ∧
    (p.tok.kind = TokKind.identifier → p.tok.text = "clang_thunk" →
      parseSILLinkage p = (false, SILLinkage.ClangThunk, p.consume)) ∧
    (p.tok.kind = TokKind.identifier → p.tok.text ≠ "internal" →
      p.tok.text ≠ "clang_thunk" →
      (parseSILLinkage p).1 = true ∧
      (parseSILLinkage p).2.2
        = p.diag p.tok.loc DiagKind.expected_sil_linkage_or_function) := by
  refine ⟨?_, ?_, ?_, ?_⟩
  · intro h
    simp [parseSILLinkage, h]
  · intro h1 h2
    simp [parseSILLinkage, h1, h2]
  · intro h1 h2
    have h3 : p.tok.text ≠ "internal" := by rw [h2]; decide
    simp [parseSILLinkage, h1, h2, h3]
  · intro h1 h2 h3
    constructor <;> simp [parseSILLinkage, h1, h2, h3]

theorem C9_parseSILLinkage_spec_witness :
    (parseSILLinkage pInternal = (false, SILLinkage.Internal, pInternal.consume)) ∧
    (parseSILLinkage pPublic).1 = true ∧
    (parseSILLinkage pPublic).2.2
      = pPublic.diag pPublic.tok.loc DiagKind.expected_sil_linkage_or_function :=
  ⟨(C9_parseSILLinkage_spec pInternal).2.1 (by decide) (by decide),
   ((C9_parseSILLinkage_spec pPublic).2.2.2 (by decide) (by decide) (by decide)).1,
   ((C9_parseSILLinkage_spec pPublic).2.2.2 (by decide) (by decide) (by decide)).2⟩

@[simp] lemma PState.astStage_consume (p : PState) :
    p.consume.astStage = p.astStage := rfl

@[simp] lemma PState.astStage_diag (p : PState) (l : SourceLoc) (k : DiagKind) :
    (p.diag l k).astStage = p.astStage := rfl

@[simp] lemma PState.astStage_parseToken (p : PState) (k : TokKind) (d : DiagKind) :
    ((p.parseToken k d).2).astStage = p.astStage := by
  unfold PState.parseToken
  split <;> rfl

@[simp] lemma PState.astStage_parseIdentifier (p : PState) (d : DiagKind) :
    ((p.parseIdentifier d).2.2.2).astStage = p.astStage := by
  unfold PState.parseIdentifier
  split <;> rfl

@[simp] lemma PState.astStage_parseMatchingToken (p : PState) (k : TokKind)
    (d : DiagKind) (o : SourceLoc) :
    ((p.parseMatchingToken k d o).2).astStage = p.astStage := by
  unfold PState.parseMatchingToken
  split <;> rfl

@[simp] lemma astStage_parseType (p : PState) (d : DiagKind) :
    ((parseType p d).2.2).astStage = p.astStage := by
  unfold parseType
  split <;> rfl

@[simp] lemma astStage_silTypeAttrLoop (fuel : Nat) (a : Bool) (u : Nat)
    (p : PState) :
    ((silTypeAttrLoop fuel a u p).2.2.2).astStage = p.astStage := by
  induction fuel generalizing a u p with
  | zero => rfl
  | succ fuel ih =>
    simp only [silTypeAttrLoop]
    repeat' split
    all_goals try rw [ih]
    all_goals simp

@[simp] lemma astStage_parseSILTypeAttrs (p : PState) :
    ((parseSILTypeAttrs p).2.2.2).astStage = p.astStage := by
  unfold parseSILTypeAttrs
  by_cases h2 : (silTypeAttrLoop (p.toks.length + 1) false 0 p).1 = true <;>
    split <;> simp [h2]

/-- C6: the ASTStage override in parseSILType is scoped and invisible from
outside.  First, on every exit path — attribute failure, missing dollar
sigil, embedded-type failure, lowering (type-checking) failure, and
success — the returned state's ASTStage equals the incoming one.  Second,
the lowering service is only ever consulted at the Parsed stage: two
oracles that agree at Parsed produce identical results.  Third, the
returned parser state does not depend on the lowering oracle at all: the
override (and the lowering outcome) change no invocation-visible state
beyond the failure flag and the returned type. -/
theorem C6_parseSILType_stage_scoped :
    (∀ (chk : ASTStage → String → Bool) (p : PState),
      ((parseSILType chk p).2.2).astStage = p.astStage) ∧
    (∀ (chk chk' : ASTStage → String → Bool) (p : PState),
      (∀ t, chk ASTStage.Parsed t = chk' ASTStage.Parsed t) →
      parseSILType chk p = parseSILType chk' p) ∧
    (∀ (chk chk' : ASTStage → String → Bool) (p : PState),
      (parseSILType chk p).2.2 = (parseSILType chk' p).2.2) := by
  refine ⟨?_, ?_, ?_⟩
  · intro chk p
    simp only [parseSILType]
    repeat' split
    all_goals simp
  · intro chk chk' p h
    simp only [parseSILType]
    simp only [h]
  · intro chk chk' p
    simp only [parseSILType]
    repeat' split
    all_goals rfl

theorem C6_parseSILType_stage_scoped_witness :
    parseSILType chkNever pTypeToks = parseSILType chkParsingOnly pTypeToks ∧
    ((parseSILType chkNever pTypeToks).2.2).astStage = pTypeToks.astStage :=
  ⟨C6_parseSILType_stage_scoped.2.1 chkNever chkParsingOnly pTypeToks
     (fun _ => rfl),
   C6_parseSILType_stage_scoped.1 chkNever pTypeToks⟩

/-- C10: parseSILType treats an opening square bracket as the start of an
attribute list only when the one-token lookahead is an identifier whose
text starts with the sil underscore prefix.  For any other bracketed text
('[bogus]' for instance) the bracket is not consumed: the whole parse fails
at the dollar-sigil check with the expected_sil_type (MalformedType)
diagnostic at the bracket's own location, the token stream is unchanged,
and no unknown_sil_type_attribute diagnostic is emitted. -/
theorem C10_non_sil_bracket_not_attribute_list
    (chk : ASTStage → String → Bool) (p : PState)
    (hl : p.tok.kind = TokKind.l_square)
    (hpk : ¬ (p.peekToken.kind = TokKind.identifier ∧
              strStartsWith p.peekToken.text "sil_" = true)) :
    parseSILType chk p
      = (true, none, p.diag p.tok.loc DiagKind.expected_sil_type) ∧
    (parseSILType chk p).2.2.toks = p.toks ∧
    (parseSILType chk p).2.2.diags
      = p.diags ++ [(p.tok.loc, DiagKind.expected_sil_type)] := by
  have key : parseSILType chk p
      = (true, none, p.diag p.tok.loc DiagKind.expected_sil_type) := by
    simp [parseSILType, parseSILTypeAttrs, hl, hpk, PState.parseToken]
  refine ⟨key, ?_, ?_⟩ <;> rw [key] <;> simp [PState.diag]

theorem C10_non_sil_bracket_not_attribute_list_witness :
    parseSILType chkNever pBracketBogus
      = (true, none,
         pBracketBogus.diag pBracketBogus.tok.loc DiagKind.expected_sil_type) ∧
    (parseSILType chkNever pBracketBogus).2.2.toks = pBracketBogus.toks :=
  let h := C10_non_sil_bracket_not_attribute_list chkNever pBracketBogus
    (by decide) (by decide)
  ⟨h.1, h.2.1⟩

/-- C8: an attribute list opening with the unknown attribute sil_bogus makes
parseSILType fail with exactly one unknown_sil_type_attribute
(UnknownAttribute) diagnostic placed at the location of the sil_bogus token
itself — for every pair of locations, the diagnostic carries the
identifier's location, not the attribute-list start — and, at the
declaration level, parseDeclSIL on `sil @f : [sil_bogus] $T { }` fails with
only that diagnostic and with no Function entity created in the module. -/
theorem C8_unknown_attribute_location_and_no_function :
    (∀ (chk : ASTStage → String → Bool) (locL locB : SourceLoc)
       (rest : List Token) (ds : List (SourceLoc × DiagKind)) (st : ASTStage)
       (sils : List SILFunctionRec) (fc : Nat),
      parseSILType chk
        { toks := { kind := TokKind.l_square, text := "[", loc := locL } ::
                  { kind := TokKind.identifier, text := "sil_bogus",
                    loc := locB } :: rest,
          diags := ds, astStage := st, sil := sils, finalizeCount := fc }
        = (true, none,
           { toks := rest,
             diags := ds ++ [(locB, DiagKind.unknown_sil_type_attribute)],
             astStage := st, sil := sils, finalizeCount := fc })) ∧
    (parseDeclSIL chkNever pC8).1 = true ∧
    (parseDeclSIL chkNever pC8).2.diags
      = [(5, DiagKind.unknown_sil_type_attribute)] ∧
    (parseDeclSIL chkNever pC8).2.sil = [] := by
  refine ⟨?_, ?_, ?_, ?_⟩
  · intro chk locL locB rest ds st sils fc
    rfl
  · decide
  · decide
  · decide

/-- C3 counterexample: on `sil @g : $T { bb0: oops` the body is present and
the mid-block failure is reported (the expected_sil_instr_name diagnostic at
location 9, inside the body), yet diagnoseProblems is never invoked: the
finalize counter stays at zero because the `return true` inside the
basic-block loop of parseDeclSIL skips the final diagnoseProblems call. -/
theorem C3_counterexample :
    (parseDeclSIL chkNever pC3bad).1 = true ∧
    (parseDeclSIL chkNever pC3bad).2.diags
      = [(9, DiagKind.expected_sil_instr_name)] ∧
    (parseDeclSIL chkNever pC3bad).2.finalizeCount = 0 := by
  decide

lemma finalizeCount_foldl_diag (l : List (Nat × SourceLoc × String)) (p : PState) :
    (l.foldl (fun q e => q.diag e.2.1 DiagKind.undefined_basicblock_use)
        p).finalizeCount = p.finalizeCount := by
  induction l generalizing p with
  | nil => rfl
  | cons a t ih =>
    rw [List.foldl_cons, ih]
    rfl

/-- C3 amended: diagnoseProblems is invoked (exactly once) at the end of a
SIL declaration parse only when every basic-block parse of a present body
succeeds (or when there is no body); a mid-block parse failure returns
immediately without invoking it.  When it is invoked, any remaining pending
forward references fail the declaration. -/
theorem C3_finalize_only_without_midblock_failure :
    (∀ s : SPFS, s.undefinedBlocks ≠ [] → (SPFS.diagnoseProblems s).1 = true) ∧
    (∀ s : SPFS,
      (SPFS.diagnoseProblems s).2.p.finalizeCount = s.p.finalizeCount + 1) ∧
    ((parseDeclSIL chkNever pC3good).1 = false ∧
     (parseDeclSIL chkNever pC3good).2.finalizeCount = 1) ∧
    ((parseDeclSIL chkNever pC3bad).1 = true ∧
     (parseDeclSIL chkNever pC3bad).2.finalizeCount = 0) := by
  refine ⟨?_, ?_, ⟨?_, ?_⟩, ⟨?_, ?_⟩⟩
  · intro s h
    unfold SPFS.diagnoseProblems SPFS.diagnoseProblemsWith
    cases hu : s.undefinedBlocks with
    | nil => exact absurd hu h
    | cons a l => simp [hu]
  · intro s
    unfold SPFS.diagnoseProblems SPFS.diagnoseProblemsWith
    by_cases h : s.undefinedBlocks.isEmpty <;>
      simp [h, finalizeCount_foldl_diag]
  · decide
  · decide
  · decide
  · decide

theorem C3_finalize_only_without_midblock_failure_witness :
    (SPFS.diagnoseProblems (emptySPFS.getBBForReference "bbx" 1).2).1 = true :=
  C3_finalize_only_without_midblock_failure.1
    (emptySPFS.getBBForReference "bbx" 1).2 (by decide)

/-- C4: the reporting order of the remaining pending entries is NOT
determined by the parse — the code iterates an unordered DenseMap (its own
FIXME flags the nondeterministic order), so any permutation of the pending
set is a possible iteration order, and two such orders already yield
different diagnostic sequences on a two-entry pending set.  The diagnostic
sequence therefore depends on the hash-table iteration order, contradicting
the required first-reference determinism. -/
theorem C4_pending_report_order_not_determined :
    ∃ (o1 o2 : List (Nat × SourceLoc × String)),
      o1.Perm sC4.undefinedBlocks ∧ o2.Perm sC4.undefinedBlocks ∧
      (sC4.diagnoseProblemsWith o1).2.p.diags
        ≠ (sC4.diagnoseProblemsWith o2).2.p.diags := by
  refine ⟨[(0, 1, "bb1"), (1, 2, "bb2")], [(1, 2, "bb2"), (0, 1, "bb1")],
    ?_, ?_, ?_⟩
  · exact List.Perm.refl _
  · exact List.Perm.swap _ _ _
  · decide
